import Mathlib

/-!
Verification of the download-measurement engine of `speed-test-rs`
(`src/lib.rs`, `SpeedTest::measure_download_speed` and its helpers).

Shallow embedding. The network and the clock are modelled as a
deterministic oracle (`Env`):
* `clientBuild` is the result of `get_reqwest_client()` (line 86);
* `setup` is the result of `setup_api()` (line 89): on success the list of
  resolved targets stored in `self.targets` (always `Some` after a
  successful `setup_api`, so the `if let Some(targets)` branch at line 91
  is taken exactly when `setup` succeeds);
* `head i` is the result of the `i`-th `client.head(url).send()` during
  probing: an error (the propagated reqwest error, rendered as a string)
  or the `content_length()` option of the response (lines 93-98);
* `stream i` is the result of the `i`-th `client.get(url).send()` during
  downloading: an error, or the list of items the byte stream yields; each
  item is an error (the stream terminated abnormally) or the `len()` of
  the delivered chunk — the only datum of a chunk the code uses
  (lines 109-112);
* `clock k` is the value of the `k`-th call to `now.elapsed().as_nanos()`
  (lines 113 and 121).

Machine integers: `bytes_downloaded` and `total_bytes` are `u64`; the
accumulations `+=` at lines 99 and 112 are modelled as addition modulo
`2^64` (release-profile wrapping semantics). `u64::try_from(item.len())`
at line 112 is modelled faithfully as a guard `len < 2^64` whose failure
produces the `TryFromIntError` display string. `time_elapsed` is `u128`;
a `Duration`'s `as_nanos` is far below `2^128`, so it is carried as `Nat`.

Observers: a registered hook (`Arc<RwLock<dyn SpeedTestEvents>>`) is a
value of `SpeedTestEvents σ`: its private state `σ` together with its
three callbacks. A callback receives `&mut self` and
`&TargetDownloadInformation` — it can update its own state from the
snapshot it is shown, and nothing else — so it is embedded as a function
`σ → TargetDownloadInformation → σ`. The engine threads the hook list
through the run exactly where the source's `for hook in &mut self.hooks`
loops sit, and additionally records a trace of every delivery
(`TraceEv`: which hook, which event, which snapshot value) for stating
event-ordering properties.
-/

/-- `2^64`, the modulus of Rust's `u64`. -/
def U64 : Nat := 2 ^ 64

/-- The engine reports every failure as a `Box<dyn Error + Send + Sync>`;
all the code ever builds or propagates is carried here by its rendered
message, so errors are strings. -/
abbrev SpeedTestError := String

/-- `struct Location { country, city }` (lib.rs lines 44-48). -/
structure Location where
  country : String
  city : String
deriving Repr, DecidableEq

/-- `struct Target { url, location, name }` (lib.rs lines 50-55). -/
structure Target where
  url : String
  location : Location
  name : String
deriving Repr, DecidableEq

/-- `struct TargetDownloadInformation` (lib.rs lines 57-62):
`bytes_downloaded: u64`, `total_bytes: u64`, `time_elapsed: u128`. -/
structure TargetDownloadInformation where
  bytes_downloaded : Nat
  total_bytes : Nat
  time_elapsed : Nat
deriving Repr, DecidableEq

/-- The three callbacks of the `SpeedTestEvents` trait (lib.rs 12-16). -/
inductive EventKind where
  | on_download
  | on_downloading
  | on_downloaded
deriving Repr, DecidableEq

/-- One delivery of an event to one hook: the hook's position in the
registration list, the callback invoked, and the snapshot value it was
shown. -/
structure TraceEv where
  hook : Nat
  kind : EventKind
  snap : TargetDownloadInformation
deriving Repr, DecidableEq

/-- A registered hook: its private state together with the three
callbacks of the `SpeedTestEvents` trait. Each callback takes `&mut self`
and `&TargetDownloadInformation`, so its whole effect is a new private
state computed from the old one and the snapshot shown to it. -/
structure SpeedTestEvents (σ : Type) where
  state : σ
  on_download : σ → TargetDownloadInformation → σ
  on_downloading : σ → TargetDownloadInformation → σ
  on_downloaded : σ → TargetDownloadInformation → σ

/-- Invoke one hook's callback for event `k` on snapshot `s`. -/
def SpeedTestEvents.apply (h : SpeedTestEvents σ) (k : EventKind)
    (s : TargetDownloadInformation) : SpeedTestEvents σ :=
  match k with
  | .on_download => { h with state := h.on_download h.state s }
  | .on_downloading => { h with state := h.on_downloading h.state s }
  | .on_downloaded => { h with state := h.on_downloaded h.state s }

/-- `SpeedTest::add_events_hook` (lib.rs 79-83): pushes the hook at the
end of `self.hooks`, so registration order is list order. -/
def add_events_hook (hooks : List (SpeedTestEvents σ)) (h : SpeedTestEvents σ) :
    List (SpeedTestEvents σ) :=
  hooks ++ [h]

/-- One `for hook in &mut self.hooks { hook.write().callback(&info) }`
loop (lib.rs 102-104, 115-117, 124-126): every hook, in registration
order, updates its state from the shared snapshot. -/
def notify (hooks : List (SpeedTestEvents σ)) (k : EventKind)
    (s : TargetDownloadInformation) : List (SpeedTestEvents σ) :=
  hooks.map (fun h => h.apply k s)

/-- The deliveries a notification loop over `n` registered hooks
performs: hooks `0, 1, …, n-1`, in that order, each shown the same
snapshot value. -/
def broadcast (n : Nat) (k : EventKind) (s : TargetDownloadInformation) :
    List TraceEv :=
  (List.range n).map (fun i => ⟨i, k, s⟩)

/-- The network / clock oracle for one `measure_download_speed` call. -/
structure Env where
  clientBuild : Except SpeedTestError Unit
  setup : Except SpeedTestError (List Target)
  head : Nat → Except SpeedTestError (Option Nat)
  stream : Nat → Except SpeedTestError (List (Except SpeedTestError Nat))
  clock : Nat → Nat

/-- The probing loop (lib.rs 92-100): for the `i`-th target, HEAD it; a
send error propagates; a missing `content_length` becomes the error
`format!("Could not read content-length from {}", target.name)`; a
present length is accumulated into `total_bytes` with u64 `+=`. -/
def probeTargets (head : Nat → Except SpeedTestError (Option Nat)) :
    List Target → Nat → Nat → Except SpeedTestError Nat
  | [], _, total => .ok total
  | t :: rest, i, total =>
    match head i with
    | .error e => .error e
    | .ok none => .error ("Could not read content-length from " ++ t.name)
    | .ok (some len) => probeTargets head rest (i + 1) ((total + len) % U64)

/-- The `while let Some(item) = stream.next().await` loop (lib.rs
111-118) for one target's byte stream. For each delivered chunk:
`bytes_downloaded += u64::try_from(item?.len())?` (wrapping u64 add after
the usize→u64 guard), `time_elapsed = now.elapsed().as_nanos()`, then
notify every hook with `on_downloading`. An error item aborts with that
error. Returns the hooks, the deliveries made, and on success the updated
snapshot plus the next clock index. -/
def consumeStream (clock : Nat → Nat) (hooks : List (SpeedTestEvents σ)) :
    List (Except SpeedTestError Nat) → TargetDownloadInformation → Nat →
    List (SpeedTestEvents σ) × List TraceEv ×
      Except SpeedTestError (TargetDownloadInformation × Nat)
  | [], info, k => (hooks, [], .ok (info, k))
  | .error e :: _, _, _ => (hooks, [], .error e)
  | .ok len :: rest, info, k =>
    if len < U64 then
      let info' : TargetDownloadInformation :=
        { info with
          bytes_downloaded := (info.bytes_downloaded + len) % U64
          time_elapsed := clock k }
      let hooks' := notify hooks .on_downloading info'
      let r := consumeStream clock hooks' rest info' (k + 1)
      (r.1, broadcast hooks.length .on_downloading info' ++ r.2.1, r.2.2)
    else
      (hooks, [], .error "out of range integral type conversion attempted")

/-- The download loop (lib.rs 108-119): for the `i`-th target, open the
byte stream (`client.get(url).send()`; a send error propagates) and
consume it. A failure anywhere aborts the run, keeping the deliveries
already made. -/
def downloadTargets (env : Env) (hooks : List (SpeedTestEvents σ)) :
    List Target → Nat → TargetDownloadInformation → Nat →
    List (SpeedTestEvents σ) × List TraceEv ×
      Except SpeedTestError (TargetDownloadInformation × Nat)
  | [], _, info, k => (hooks, [], .ok (info, k))
  | _ :: rest, i, info, k =>
    match env.stream i with
    | .error e => (hooks, [], .error e)
    | .ok items =>
      let r := consumeStream env.clock hooks items info k
      match r.2.2 with
      | .error e => (r.1, r.2.1, .error e)
      | .ok (info', k') =>
        let r' := downloadTargets env r.1 rest (i + 1) info' k'
        (r'.1, r.2.1 ++ r'.2.1, r'.2.2)

/-- `SpeedTest::measure_download_speed` (lib.rs 85-129). Build the
client, run `setup_api`, probe every target accumulating `total_bytes`,
notify `on_download` with the snapshot (bytes 0, the probed total,
elapsed still 0 — the `Default` value of line 87), download every target
chunk by chunk, take a final elapsed reading (line 121), notify
`on_downloaded` with the final snapshot and return it. Any `?` failure
returns that error at once, skipping everything after it. Returns the
hook states, the trace of deliveries, and the result. -/
def measure_download_speed (env : Env) (hooks : List (SpeedTestEvents σ)) :
    List (SpeedTestEvents σ) × List TraceEv ×
      Except SpeedTestError TargetDownloadInformation :=
  match env.clientBuild with
  | .error e => (hooks, [], .error e)
  | .ok _ =>
    match env.setup with
    | .error e => (hooks, [], .error e)
    | .ok targets =>
      match probeTargets env.head targets 0 0 with
      | .error e => (hooks, [], .error e)
      | .ok total =>
        let info0 : TargetDownloadInformation :=
          { bytes_downloaded := 0, total_bytes := total, time_elapsed := 0 }
        let hooks1 := notify hooks .on_download info0
        let tr0 := broadcast hooks.length .on_download info0
        let r := downloadTargets env hooks1 targets 0 info0 0
        match r.2.2 with
        | .error e => (r.1, tr0 ++ r.2.1, .error e)
        | .ok (info1, k) =>
          let infoF : TargetDownloadInformation :=
            { info1 with time_elapsed := env.clock k }
          (notify r.1 .on_downloaded infoF,
            tr0 ++ r.2.1 ++ broadcast hooks.length .on_downloaded infoF,
            .ok infoF)

/-! ### Derived notions used in the statements -/

/-- `probeSum c i n = c i + c (i+1) + … + c (i+n-1)`: the sum of a
per-target quantity over `n` consecutive target indices starting at `i`. -/
def probeSum (c : Nat → Nat) : Nat → Nat → Nat
  | _, 0 => 0
  | i, n + 1 => c i + probeSum c (i + 1) n

/-- Snapshot ordering for the monotonicity claim: non-decreasing in both
`bytes_downloaded` and `time_elapsed`. -/
def snapLE (a b : TargetDownloadInformation) : Prop :=
  a.bytes_downloaded ≤ b.bytes_downloaded ∧ a.time_elapsed ≤ b.time_elapsed

instance : DecidableRel snapLE := fun a b =>
  inferInstanceAs (Decidable (a.bytes_downloaded ≤ b.bytes_downloaded ∧
    a.time_elapsed ≤ b.time_elapsed))

/-- The sequence of snapshots observer `i` is shown by successive
`on_downloading` calls, in delivery order. -/
def progressSnaps (tr : List TraceEv) (i : Nat) : List TargetDownloadInformation :=
  (tr.filter (fun ev => ev.hook == i && ev.kind == EventKind.on_downloading)).map TraceEv.snap

/-- Byte length a stream item would contribute; an error item contributes
nothing. -/
def itemLen : Except SpeedTestError Nat → Nat
  | .ok l => l
  | .error _ => 0

/-- Every chunk byte a stream result could ever deliver. -/
def streamLens : Except SpeedTestError (List (Except SpeedTestError Nat)) → Nat
  | .error _ => 0
  | .ok items => (items.map itemLen).sum

/-- Upper bound on the bytes the download loop over targets `i, i+1, …`
can accumulate: the sum of every chunk length any of their streams
holds. -/
def streamBudget (env : Env) : Nat → List Target → Nat
  | _, [] => 0
  | i, _ :: rest => streamLens (env.stream i) + streamBudget env (i + 1) rest

/-- What observer `i` by itself makes of a delivery trace: fold its own
callbacks over the events addressed to it, ignoring every other
observer's existence. -/
def runHook (h : SpeedTestEvents σ) (i : Nat) (tr : List TraceEv) : SpeedTestEvents σ :=
  tr.foldl (fun hh ev => if ev.hook = i then hh.apply ev.kind ev.snap else hh) h

/-- A delivery trace consisting of complete broadcasts over `n`
registered observers: each notification reaches observers `0, …, n-1` in
registration order, contiguously (it completes before any later delivery
is made), all shown the same snapshot value. -/
inductive BroadcastTrace (n : Nat) : List TraceEv → Prop
  | nil : BroadcastTrace n []
  | cons (k : EventKind) (s : TargetDownloadInformation) (tr : List TraceEv) :
      BroadcastTrace n tr → BroadcastTrace n (broadcast n k s ++ tr)

/-- `needle` occurs as a contiguous substring of `hay`. "The error names
the target" is read as: the target's `name` occurs in the error
message. -/
def mentionsStr (needle hay : String) : Bool :=
  (List.range (hay.data.length + 1)).any (fun i => needle.data.isPrefixOf (hay.data.drop i))

/-- The `i`-th GET fails to deliver its body completely: either the send
itself errors with `e`, or the stream yields some intact chunks and then
an error item carrying `e`. -/
def streamFailsWith (r : Except SpeedTestError (List (Except SpeedTestError Nat)))
    (e : SpeedTestError) : Prop :=
  r = .error e ∨
    ∃ (pre : List Nat) (rest : List (Except SpeedTestError Nat)),
      r = .ok (pre.map Except.ok ++ Except.error e :: rest) ∧ ∀ l ∈ pre, l < U64

/-- A stateless hook, for instantiating runs concretely. -/
def unitHook : SpeedTestEvents Unit :=
  ⟨(), fun s _ => s, fun s _ => s, fun s _ => s⟩

/-- A hook that counts the callbacks delivered to it. -/
def countHook : SpeedTestEvents Nat :=
  ⟨0, fun s _ => s + 1, fun s _ => s + 1, fun s _ => s + 1⟩

/-- Two concrete resolved targets for instantiating runs. -/
def targetA : Target :=
  { url := "https://a.example/payload", location := { country := "US", city := "X" }, name := "A" }

/-- Second concrete target; its probe omits the size header in the
probe-failure scenarios. -/
def targetB : Target :=
  { url := "https://b.example/payload", location := { country := "US", city := "Y" }, name := "B" }

/-- A well-behaved two-target environment: targets sized 1000 and 2000
bytes, delivered completely in chunks `[400, 600]` and `[2000]`. -/
def envGood : Env where
  clientBuild := .ok ()
  setup := .ok [targetA, targetB]
  head := fun i => if i = 0 then .ok (some 1000) else .ok (some 2000)
  stream := fun i => if i = 0 then .ok [.ok 400, .ok 600] else .ok [.ok 2000]
  clock := fun k => k

/-- A single-target environment whose probe reports 3 bytes but whose
stream delivers a `2^64 - 1` byte chunk and then a 2 byte chunk,
overflowing the u64 byte counter. -/
def envWrap : Env where
  clientBuild := .ok ()
  setup := .ok [targetA]
  head := fun _ => .ok (some 3)
  stream := fun _ => .ok [.ok (U64 - 1), .ok 2]
  clock := fun k => k

/-- A two-target environment in which target "B"'s probe response omits
the content-length header. -/
def envProbeFail : Env where
  clientBuild := .ok ()
  setup := .ok [targetA, targetB]
  head := fun i => if i = 0 then .ok (some 1000) else .ok none
  stream := fun _ => .ok [.ok 1000]
  clock := fun k => k

/-- Target "A" (5 bytes) downloads fully; target "B"'s stream delivers
one 2-byte chunk and then terminates abnormally with a transport error
that does not mention "B". -/
def envStreamFail : Env where
  clientBuild := .ok ()
  setup := .ok [targetA, targetB]
  head := fun i => if i = 0 then .ok (some 5) else .ok (some 4)
  stream := fun i =>
    if i = 0 then .ok [.ok 5] else .ok [.ok 2, .error "connection reset"]
  clock := fun k => k

/-- An environment whose discovery returns zero targets; no probe or
stream request is ever issued; the final elapsed reading is 7. -/
def env0Targets : Env where
  clientBuild := .ok ()
  setup := .ok []
  head := fun _ => .error "no request issued"
  stream := fun _ => .error "no request issued"
  clock := fun _ => 7

/-! ### Basic structural lemmas -/

theorem U64_pos : 0 < U64 := by norm_num [U64]

theorem notify_length (hooks : List (SpeedTestEvents σ)) (k : EventKind)
    (s : TargetDownloadInformation) : (notify hooks k s).length = hooks.length := by
  simp [notify]

theorem broadcast_mem {n : Nat} {k : EventKind} {s : TargetDownloadInformation}
    {ev : TraceEv} (h : ev ∈ broadcast n k s) :
    ev.hook < n ∧ ev.kind = k ∧ ev.snap = s := by
  simp only [broadcast, List.mem_map, List.mem_range] at h
  obtain ⟨i, hi, rfl⟩ := h
  exact ⟨hi, rfl, rfl⟩

theorem consumeStream_hooks_length (clock : Nat → Nat) :
    ∀ (items : List (Except SpeedTestError Nat)) (hooks : List (SpeedTestEvents σ))
      (info : TargetDownloadInformation) (k : Nat),
    (consumeStream clock hooks items info k).1.length = hooks.length := by
  intro items
  induction items with
  | nil => intro hooks info k; simp [consumeStream]
  | cons x rest ih =>
    intro hooks info k
    cases x with
    | error e => simp [consumeStream]
    | ok len =>
      by_cases h : len < U64
      · simp only [consumeStream, if_pos h]
        rw [ih]
        exact notify_length ..
      · simp [consumeStream, if_neg h]

theorem downloadTargets_hooks_length (env : Env) :
    ∀ (targets : List Target) (hooks : List (SpeedTestEvents σ)) (i : Nat)
      (info : TargetDownloadInformation) (k : Nat),
    (downloadTargets env hooks targets i info k).1.length = hooks.length := by
  intro targets
  induction targets with
  | nil => intro hooks i info k; simp [downloadTargets]
  | cons t rest ih =>
    intro hooks i info k
    simp only [downloadTargets]
    cases h : env.stream i with
    | error e => rfl
    | ok items =>
      simp only []
      cases h2 : (consumeStream env.clock hooks items info k).2.2 with
      | error e => simpa using consumeStream_hooks_length env.clock items hooks info k
      | ok p =>
        simp only []
        rw [ih]
        exact consumeStream_hooks_length ..

theorem measure_hooks_length (env : Env) (hooks : List (SpeedTestEvents σ)) :
    (measure_download_speed env hooks).1.length = hooks.length := by
  simp only [measure_download_speed]
  split
  · rfl
  split
  · rfl
  split
  · rfl
  split
  · simp [downloadTargets_hooks_length, notify_length]
  · simp [downloadTargets_hooks_length, notify_length]

/-! ### Trace shape lemmas -/

theorem consumeStream_trace_kind (clock : Nat → Nat) :
    ∀ (items : List (Except SpeedTestError Nat)) (hooks : List (SpeedTestEvents σ))
      (info : TargetDownloadInformation) (k : Nat),
    ∀ ev ∈ (consumeStream clock hooks items info k).2.1,
      ev.kind = .on_downloading ∧ ev.hook < hooks.length := by
  intro items
  induction items with
  | nil => intro hooks info k ev h; simp [consumeStream] at h
  | cons x rest ih =>
    intro hooks info k ev h
    cases x with
    | error e => simp [consumeStream] at h
    | ok len =>
      by_cases hl : len < U64
      · simp only [consumeStream, if_pos hl, List.mem_append] at h
        rcases h with h | h
        · exact ⟨(broadcast_mem h).2.1, (broadcast_mem h).1⟩
        · have := ih (notify hooks .on_downloading _) _ _ ev h
          simpa [notify_length] using this
      · simp [consumeStream, if_neg hl] at h

theorem downloadTargets_trace_kind (env : Env) :
    ∀ (targets : List Target) (hooks : List (SpeedTestEvents σ)) (i : Nat)
      (info : TargetDownloadInformation) (k : Nat),
    ∀ ev ∈ (downloadTargets env hooks targets i info k).2.1,
      ev.kind = .on_downloading ∧ ev.hook < hooks.length := by
  intro targets
  induction targets with
  | nil => intro hooks i info k ev h; simp [downloadTargets] at h
  | cons t rest ih =>
    intro hooks i info k ev h
    simp only [downloadTargets] at h
    cases hs : env.stream i with
    | error e => rw [hs] at h; simp at h
    | ok items =>
      rw [hs] at h
      simp only [] at h
      cases h2 : (consumeStream env.clock hooks items info k).2.2 with
      | error e =>
        rw [h2] at h
        simp only [] at h
        exact consumeStream_trace_kind env.clock items hooks info k ev h
      | ok p =>
        rw [h2] at h
        simp only [List.mem_append] at h
        rcases h with h | h
        · exact consumeStream_trace_kind env.clock items hooks info k ev h
        · have := ih _ _ _ _ ev h
          simpa [consumeStream_hooks_length] using this

/-! ### Success characterizations -/

theorem probeSum_succ (c : Nat → Nat) (i n : Nat) :
    probeSum c i (n + 1) = c i + probeSum c (i + 1) n := rfl

theorem probeTargets_ok (head : Nat → Except SpeedTestError (Option Nat)) (c : Nat → Nat) :
    ∀ (ts : List Target) (i : Nat) (t0 : Nat),
    t0 < U64 →
    (∀ j, j < ts.length → head (i + j) = .ok (some (c (i + j)))) →
    probeTargets head ts i t0 = .ok ((t0 + probeSum c i ts.length) % U64) := by
  intro ts
  induction ts with
  | nil =>
    intro i t0 h0 _
    simp [probeTargets, probeSum, Nat.mod_eq_of_lt h0]
  | cons t rest ih =>
    intro i t0 h0 hj
    have h := hj 0 (by simp)
    simp only [Nat.add_zero] at h
    simp only [probeTargets, h]
    rw [ih (i + 1) _ (Nat.mod_lt _ U64_pos)
      (fun j hjl => by
        have := hj (j + 1) (by simpa using Nat.succ_lt_succ hjl)
        rwa [show i + (j + 1) = i + 1 + j by omega] at this)]
    simp only [List.length_cons, probeSum_succ]
    rw [Nat.mod_add_mod]
    congr 2
    omega

theorem consumeStream_ok (clock : Nat → Nat) :
    ∀ (lens : List Nat) (hooks : List (SpeedTestEvents σ))
      (info : TargetDownloadInformation) (k : Nat),
    info.bytes_downloaded < U64 →
    (∀ l ∈ lens, l < U64) →
    ∃ t, (consumeStream clock hooks (lens.map Except.ok) info k).2.2 =
      .ok ({ bytes_downloaded := (info.bytes_downloaded + lens.sum) % U64,
             total_bytes := info.total_bytes, time_elapsed := t }, k + lens.length) := by
  intro lens
  induction lens with
  | nil =>
    intro hooks info k hb _
    exact ⟨info.time_elapsed, by simp [consumeStream, Nat.mod_eq_of_lt hb]⟩
  | cons l rest ih =>
    intro hooks info k hb hl
    have hlU : l < U64 := hl l (by simp)
    simp only [List.map_cons, consumeStream, if_pos hlU]
    obtain ⟨t, ht⟩ := ih (notify hooks .on_downloading
        { info with bytes_downloaded := (info.bytes_downloaded + l) % U64,
                    time_elapsed := clock k })
      { info with bytes_downloaded := (info.bytes_downloaded + l) % U64,
                  time_elapsed := clock k }
      (k + 1) (Nat.mod_lt _ U64_pos) (fun x hx => hl x (by simp [hx]))
    refine ⟨t, ?_⟩
    rw [ht]
    dsimp only
    simp only [List.sum_cons, List.length_cons]
    congr 2
    · congr 1
      rw [Nat.mod_add_mod, Nat.add_assoc]
    · omega

theorem downloadTargets_ok (env : Env) (chunks : Nat → List Nat) :
    ∀ (ts : List Target) (hooks : List (SpeedTestEvents σ)) (i : Nat)
      (info : TargetDownloadInformation) (k : Nat),
    info.bytes_downloaded < U64 →
    (∀ j, j < ts.length → env.stream (i + j) = .ok ((chunks (i + j)).map Except.ok) ∧
      ∀ l ∈ chunks (i + j), l < U64) →
    ∃ t, (downloadTargets env hooks ts i info k).2.2 =
      .ok ({ bytes_downloaded :=
               (info.bytes_downloaded + probeSum (fun j => (chunks j).sum) i ts.length) % U64,
             total_bytes := info.total_bytes, time_elapsed := t },
        k + probeSum (fun j => (chunks j).length) i ts.length) := by
  intro ts
  induction ts with
  | nil =>
    intro hooks i info k hb _
    exact ⟨info.time_elapsed, by simp [downloadTargets, probeSum, Nat.mod_eq_of_lt hb]⟩
  | cons t rest ih =>
    intro hooks i info k hb hj
    have h0 := hj 0 (by simp)
    simp only [Nat.add_zero] at h0
    simp only [downloadTargets, h0.1]
    obtain ⟨t1, ht1⟩ := consumeStream_ok env.clock (chunks i) hooks info k hb h0.2
    rw [ht1]
    dsimp only
    obtain ⟨t2, ht2⟩ := ih
      (consumeStream env.clock hooks ((chunks i).map Except.ok) info k).1 (i + 1)
      { bytes_downloaded := (info.bytes_downloaded + (chunks i).sum) % U64,
        total_bytes := info.total_bytes, time_elapsed := t1 }
      (k + (chunks i).length) (Nat.mod_lt _ U64_pos)
      (fun j hjl => by
        have := hj (j + 1) (by simpa using Nat.succ_lt_succ hjl)
        rwa [show i + (j + 1) = i + 1 + j by omega] at this)
    rw [ht2]
    dsimp only
    refine ⟨t2, ?_⟩
    simp only [List.length_cons, probeSum_succ]
    congr 2
    · congr 1
      rw [Nat.mod_add_mod, Nat.add_assoc]
    · omega

theorem probeSum_congr (f g : Nat → Nat) :
    ∀ (n i : Nat), (∀ j, i ≤ j → j < i + n → f j = g j) →
    probeSum f i n = probeSum g i n := by
  intro n
  induction n with
  | zero => intro i _; rfl
  | succ m ih =>
    intro i h
    simp only [probeSum_succ]
    rw [h i (Nat.le_refl i) (by omega),
      ih (i + 1) (fun j hj1 hj2 => h j (by omega) (by omega))]

/-- C1: for every run in which building the HTTP client and `setup_api`
succeed, every target's probe reports a content length, and every
target's streamed body delivers exactly as many bytes as its probed
content length (in chunks of machine-representable length), the run
succeeds and the returned final snapshot satisfies
`bytes_downloaded = total_bytes` exactly. -/
theorem c1_final_bytes_eq_total (env : Env) (hooks : List (SpeedTestEvents σ))
    (ts : List Target) (c : Nat → Nat) (chunks : Nat → List Nat)
    (hclient : env.clientBuild = .ok ())
    (hsetup : env.setup = .ok ts)
    (hhead : ∀ j, j < ts.length → env.head j = .ok (some (c j)))
    (hstream : ∀ j, j < ts.length → env.stream j = .ok ((chunks j).map Except.ok))
    (hchunk : ∀ j, j < ts.length → ∀ l ∈ chunks j, l < U64)
    (hsum : ∀ j, j < ts.length → (chunks j).sum = c j) :
    ∃ info, (measure_download_speed env hooks).2.2 = .ok info ∧
      info.bytes_downloaded = info.total_bytes := by
  have hprobe : probeTargets env.head ts 0 0 =
      .ok ((0 + probeSum c 0 ts.length) % U64) :=
    probeTargets_ok env.head c ts 0 0 U64_pos (fun j hj => by simpa using hhead j hj)
  obtain ⟨t, ht⟩ := downloadTargets_ok env chunks ts
    (notify hooks .on_download
      { bytes_downloaded := 0, total_bytes := (0 + probeSum c 0 ts.length) % U64,
        time_elapsed := 0 })
    0
    { bytes_downloaded := 0, total_bytes := (0 + probeSum c 0 ts.length) % U64,
      time_elapsed := 0 }
    0 U64_pos
    (fun j hj => by simpa using ⟨hstream j hj, hchunk j hj⟩)
  simp only [measure_download_speed, hclient, hsetup, hprobe]
  rw [ht]
  dsimp only
  refine ⟨_, rfl, ?_⟩
  simp only [Nat.zero_add]
  rw [probeSum_congr (fun j => (chunks j).sum) c ts.length 0
    (fun j hj1 hj2 => hsum j (by omega))]

/-- C1 witness: the well-behaved two-target run evaluates to a final
snapshot with equal byte counters. -/
theorem c1_witness :
    ∃ info, (measure_download_speed envGood [unitHook]).2.2 = .ok info ∧
      info.bytes_downloaded = info.total_bytes := by
  refine c1_final_bytes_eq_total envGood [unitHook] [targetA, targetB]
    (fun i => if i = 0 then 1000 else 2000)
    (fun i => if i = 0 then [400, 600] else [2000])
    rfl rfl ?_ ?_ ?_ ?_ <;>
  · intro j hj
    simp only [List.length_cons, List.length_nil] at hj
    interval_cases j <;> simp [envGood, U64]

/-- C6 counterexample: in `envWrap` the stream delivers `2^64 - 1` bytes
and then 2 more, so accumulating the second chunk overflows u64; instead
of failing with any internal-overflow error the run completes
successfully, the counter silently wrapped around to 1. -/
theorem c6_counterexample :
    U64 ≤ (U64 - 1) + 2 ∧
    (measure_download_speed envWrap [unitHook]).2.2 =
      .ok { bytes_downloaded := 1, total_bytes := 3, time_elapsed := 2 } := by
  constructor
  · norm_num [U64]
  · rfl

/-- C6 amended: the u64 byte counter is accumulated modulo `2^64`. On
any run whose client build, setup and probes succeed and whose streams
deliver only intact chunks of machine-representable length, the engine
returns Ok — never an overflow error — and the returned
`bytes_downloaded` is the total delivered byte count reduced modulo
`2^64`, even when that total exceeds the u64 range. -/
theorem c6_wrap_modulo (env : Env) (hooks : List (SpeedTestEvents σ))
    (ts : List Target) (c : Nat → Nat) (chunks : Nat → List Nat)
    (hclient : env.clientBuild = .ok ())
    (hsetup : env.setup = .ok ts)
    (hhead : ∀ j, j < ts.length → env.head j = .ok (some (c j)))
    (hstream : ∀ j, j < ts.length → env.stream j = .ok ((chunks j).map Except.ok))
    (hchunk : ∀ j, j < ts.length → ∀ l ∈ chunks j, l < U64) :
    ∃ info, (measure_download_speed env hooks).2.2 = .ok info ∧
      info.bytes_downloaded = probeSum (fun j => (chunks j).sum) 0 ts.length % U64 := by
  have hprobe : probeTargets env.head ts 0 0 =
      .ok ((0 + probeSum c 0 ts.length) % U64) :=
    probeTargets_ok env.head c ts 0 0 U64_pos (fun j hj => by simpa using hhead j hj)
  obtain ⟨t, ht⟩ := downloadTargets_ok env chunks ts
    (notify hooks .on_download
      { bytes_downloaded := 0, total_bytes := (0 + probeSum c 0 ts.length) % U64,
        time_elapsed := 0 })
    0
    { bytes_downloaded := 0, total_bytes := (0 + probeSum c 0 ts.length) % U64,
      time_elapsed := 0 }
    0 U64_pos
    (fun j hj => by simpa using ⟨hstream j hj, hchunk j hj⟩)
  simp only [measure_download_speed, hclient, hsetup, hprobe]
  rw [ht]
  dsimp only
  exact ⟨_, rfl, by simp⟩

/-- C6 amended witness: the overflowing run of `envWrap` satisfies the
modulo characterization with a wrapped counter. -/
theorem c6_wrap_modulo_witness :
    ∃ info, (measure_download_speed envWrap [unitHook]).2.2 = .ok info ∧
      info.bytes_downloaded =
        probeSum (fun j => ((fun _ => [U64 - 1, 2]) j).sum) 0 1 % U64 := by
  refine c6_wrap_modulo envWrap [unitHook] [targetA]
    (fun _ => 3) (fun _ => [U64 - 1, 2]) rfl rfl ?_ ?_ ?_ <;>
  · intro j hj
    simp only [List.length_cons, List.length_nil] at hj
    interval_cases j
    simp [envWrap, U64]

theorem probeTargets_fail (head : Nat → Except SpeedTestError (Option Nat)) :
    ∀ (ts : List Target) (i0 : Nat) (t0 : Nat) (j : Nat) (hj : j < ts.length),
    head (i0 + j) = .ok none →
    (∀ i, i < j → ∃ c, head (i0 + i) = .ok (some c)) →
    probeTargets head ts i0 t0 =
      .error ("Could not read content-length from " ++ (ts.get ⟨j, hj⟩).name) := by
  intro ts
  induction ts with
  | nil => intro i0 t0 j hj; exact absurd hj (by simp)
  | cons t rest ih =>
    intro i0 t0 j hj hfail hbefore
    cases j with
    | zero =>
      simp only [Nat.add_zero] at hfail
      simp [probeTargets, hfail]
    | succ m =>
      obtain ⟨c, hc⟩ := hbefore 0 (Nat.succ_pos m)
      simp only [Nat.add_zero] at hc
      simp only [probeTargets, hc]
      have := ih (i0 + 1) ((t0 + c) % U64) m
        (by simpa using Nat.lt_of_succ_lt_succ hj)
        (by rw [show i0 + 1 + m = i0 + (m + 1) by omega]; exact hfail)
        (fun i hi => by
          rw [show i0 + 1 + i = i0 + (i + 1) by omega]
          exact hbefore (i + 1) (Nat.succ_lt_succ hi))
      simpa using this

/-- C3: if during probing some target's HEAD response carries no
content-length (all earlier probes having reported one), the run aborts
with the error naming that target, built by the `format!` at lib.rs 98;
no event of any kind is delivered (the hook states come back untouched
and the trace is empty), and no byte is downloaded from any target: the
outcome is the same whatever every target's download stream would have
been, since no stream is ever opened. -/
theorem c3_probe_all_or_nothing (env : Env) (hooks : List (SpeedTestEvents σ))
    (ts : List Target) (j : Nat) (hj : j < ts.length)
    (hclient : env.clientBuild = .ok ())
    (hsetup : env.setup = .ok ts)
    (hfail : env.head j = .ok none)
    (hbefore : ∀ i, i < j → ∃ c, env.head i = .ok (some c)) :
    ∀ g, measure_download_speed { env with stream := g } hooks =
      (hooks, [],
        .error ("Could not read content-length from " ++ (ts.get ⟨j, hj⟩).name)) := by
  intro g
  have hp := probeTargets_fail env.head ts 0 0 j hj (by simpa using hfail)
    (fun i hi => by simpa using hbefore i hi)
  simp only [measure_download_speed, hclient, hsetup, hp]

/-- C3 witness: in `envProbeFail` the probe of target "B" omits the
size header; the run returns exactly the probe error naming "B", with no
deliveries and untouched hooks. -/
theorem c3_witness :
    measure_download_speed envProbeFail [unitHook] =
      ([unitHook], [], .error "Could not read content-length from B") := by
  have h := c3_probe_all_or_nothing envProbeFail [unitHook] [targetA, targetB] 1
    (by norm_num) rfl rfl rfl
    (fun i hi => ⟨1000, by interval_cases i; rfl⟩)
  have h2 := h envProbeFail.stream
  simpa using h2

theorem consumeStream_fail (clock : Nat → Nat) :
    ∀ (pre : List Nat) (rest : List (Except SpeedTestError Nat)) (e : SpeedTestError)
      (hooks : List (SpeedTestEvents σ)) (info : TargetDownloadInformation) (k : Nat),
    (∀ l ∈ pre, l < U64) →
    (consumeStream clock hooks (pre.map Except.ok ++ Except.error e :: rest) info k).2.2 =
      .error e := by
  intro pre
  induction pre with
  | nil => intro rest e hooks info k _; simp [consumeStream]
  | cons l tl ih =>
    intro rest e hooks info k hl
    have hlU : l < U64 := hl l (by simp)
    simp only [List.map_cons, List.cons_append, consumeStream, if_pos hlU]
    exact ih rest e _ _ _ (fun x hx => hl x (by simp [hx]))

theorem downloadTargets_fail (env : Env) (chunks : Nat → List Nat) :
    ∀ (ts : List Target) (hooks : List (SpeedTestEvents σ)) (i : Nat)
      (info : TargetDownloadInformation) (k : Nat) (K : Nat) (e : SpeedTestError),
    info.bytes_downloaded < U64 →
    K < ts.length →
    (∀ j, j < K → env.stream (i + j) = .ok ((chunks (i + j)).map Except.ok) ∧
      ∀ l ∈ chunks (i + j), l < U64) →
    streamFailsWith (env.stream (i + K)) e →
    (downloadTargets env hooks ts i info k).2.2 = .error e := by
  intro ts
  induction ts with
  | nil => intro hooks i info k K e _ hK; exact absurd hK (by simp)
  | cons t rest ih =>
    intro hooks i info k K e hb hK hpre hfail
    cases K with
    | zero =>
      simp only [Nat.add_zero] at hfail
      rcases hfail with hfail | ⟨p, q, hfail, hp⟩
      · simp [downloadTargets, hfail]
      · simp only [downloadTargets, hfail]
        rw [consumeStream_fail env.clock p q e hooks info k hp]
    | succ m =>
      have h0 := hpre 0 (Nat.succ_pos m)
      simp only [Nat.add_zero] at h0
      simp only [downloadTargets, h0.1]
      obtain ⟨t1, ht1⟩ := consumeStream_ok env.clock (chunks i) hooks info k hb h0.2
      rw [ht1]
      dsimp only
      exact ih _ (i + 1) _ (k + (chunks i).length) m e (Nat.mod_lt _ U64_pos)
        (by simpa using Nat.lt_of_succ_lt_succ hK)
        (fun j hj => by
          have := hpre (j + 1) (Nat.succ_lt_succ hj)
          rwa [show i + (j + 1) = i + 1 + j by omega] at this)
        (by rwa [show i + 1 + m = i + (m + 1) by omega])

/-- C4 counterexample: in `envStreamFail`, target "B"'s stream
terminates abnormally mid-transfer, but the engine returns the
propagated transport error `"connection reset"` verbatim — an error that
does not contain the failing target's name "B" anywhere, contrary to the
claim that the returned error names target K. -/
theorem c4_counterexample :
    envStreamFail.setup = .ok [targetA, targetB] ∧
    (measure_download_speed envStreamFail [unitHook]).2.2 = .error "connection reset" ∧
    targetB.name = "B" ∧
    mentionsStr targetB.name "connection reset" = false := by
  exact ⟨rfl, rfl, rfl, by decide⟩

/-- C4 amended: if, after every probe reported a size, the stream for
target K terminates abnormally mid-transfer (every earlier target having
downloaded fully), the run aborts immediately: `measure_download_speed`
returns the stream's own propagated error — which need not name target
K — and no `on_downloaded` event is ever delivered to any observer. -/
theorem c4_transfer_error_aborts (env : Env) (hooks : List (SpeedTestEvents σ))
    (ts : List Target) (K : Nat) (e : SpeedTestError)
    (c : Nat → Nat) (chunks : Nat → List Nat)
    (hclient : env.clientBuild = .ok ())
    (hsetup : env.setup = .ok ts)
    (hhead : ∀ j, j < ts.length → env.head j = .ok (some (c j)))
    (hK : K < ts.length)
    (hpre : ∀ j, j < K → env.stream j = .ok ((chunks j).map Except.ok) ∧
      ∀ l ∈ chunks j, l < U64)
    (hfailK : streamFailsWith (env.stream K) e) :
    (measure_download_speed env hooks).2.2 = .error e ∧
    ∀ ev ∈ (measure_download_speed env hooks).2.1, ev.kind ≠ .on_downloaded := by
  have hprobe : probeTargets env.head ts 0 0 =
      .ok ((0 + probeSum c 0 ts.length) % U64) :=
    probeTargets_ok env.head c ts 0 0 U64_pos (fun j hj => by simpa using hhead j hj)
  have hdl := downloadTargets_fail env chunks ts
    (notify hooks .on_download
      { bytes_downloaded := 0, total_bytes := (0 + probeSum c 0 ts.length) % U64,
        time_elapsed := 0 })
    0
    { bytes_downloaded := 0, total_bytes := (0 + probeSum c 0 ts.length) % U64,
      time_elapsed := 0 }
    0 K e U64_pos hK
    (fun j hj => by simpa using hpre j hj)
    (by simpa using hfailK)
  constructor
  · simp only [measure_download_speed, hclient, hsetup, hprobe]
    rw [hdl]
  · intro ev hev
    simp only [measure_download_speed, hclient, hsetup, hprobe] at hev
    rw [hdl] at hev
    simp only [List.mem_append] at hev
    rcases hev with hev | hev
    · rw [(broadcast_mem hev).2.1]
      intro hcon
      exact absurd hcon (by decide)
    · rw [(downloadTargets_trace_kind env ts _ 0 _ 0 ev hev).1]
      intro hcon
      exact absurd hcon (by decide)

/-- C4 amended witness: the concrete failing run of `envStreamFail`
returns the transport error and delivers no finished event. -/
theorem c4_transfer_error_aborts_witness :
    (measure_download_speed envStreamFail [unitHook]).2.2 = .error "connection reset" ∧
    ∀ ev ∈ (measure_download_speed envStreamFail [unitHook]).2.1,
      ev.kind ≠ .on_downloaded := by
  refine c4_transfer_error_aborts envStreamFail [unitHook] [targetA, targetB] 1
    "connection reset" (fun i => if i = 0 then 5 else 4) (fun _ => [5])
    rfl rfl ?_ (by norm_num) ?_ ?_
  · intro j hj
    simp only [List.length_cons, List.length_nil] at hj
    interval_cases j <;> rfl
  · intro j hj
    interval_cases j
    exact ⟨rfl, by intro l hl; simp only [List.mem_singleton] at hl; subst hl; norm_num [U64]⟩
  · exact Or.inr ⟨[2], [], rfl, by intro l hl; simp only [List.mem_singleton] at hl; subst hl; norm_num [U64]⟩

/-- C2 counterexample: a run whose probing fails (target "B" omits its
size header in `envProbeFail`) emits no `on_download` at all — zero
deliveries to the one registered observer rather than exactly one — so
the start event is not emitted once in every run. -/
theorem c2_counterexample :
    (measure_download_speed envProbeFail [unitHook]).2.1 = [] ∧
    ((measure_download_speed envProbeFail [unitHook]).2.1.filter
      (fun ev => ev.kind == EventKind.on_download)).length = 0 := ⟨rfl, rfl⟩

/-- C2 amended: in every run in which the client build, `setup_api` and
all probes succeed, the `on_download` start event is delivered exactly
once to each registered observer, in registration order, before any
other delivery; its snapshot carries `bytes_downloaded = 0` and
`total_bytes` equal to the sum of the probed per-target content lengths
(accumulated in u64, i.e. reduced modulo 2^64); no later delivery is an
`on_download`. -/
theorem c2_start_event (env : Env) (hooks : List (SpeedTestEvents σ))
    (ts : List Target) (c : Nat → Nat)
    (hclient : env.clientBuild = .ok ())
    (hsetup : env.setup = .ok ts)
    (hhead : ∀ j, j < ts.length → env.head j = .ok (some (c j))) :
    ∃ tail,
      (measure_download_speed env hooks).2.1 =
        broadcast hooks.length .on_download
          { bytes_downloaded := 0, total_bytes := (0 + probeSum c 0 ts.length) % U64,
            time_elapsed := 0 } ++ tail ∧
      ∀ ev ∈ tail, ev.kind ≠ .on_download := by
  have hprobe : probeTargets env.head ts 0 0 =
      .ok ((0 + probeSum c 0 ts.length) % U64) :=
    probeTargets_ok env.head c ts 0 0 U64_pos (fun j hj => by simpa using hhead j hj)
  simp only [measure_download_speed, hclient, hsetup, hprobe]
  cases hr : (downloadTargets env
      (notify hooks .on_download
        { bytes_downloaded := 0, total_bytes := (0 + probeSum c 0 ts.length) % U64,
          time_elapsed := 0 })
      ts 0
      { bytes_downloaded := 0, total_bytes := (0 + probeSum c 0 ts.length) % U64,
        time_elapsed := 0 } 0).2.2 with
  | error e =>
    dsimp only
    refine ⟨_, rfl, ?_⟩
    intro ev hev
    rw [(downloadTargets_trace_kind env ts _ 0 _ 0 ev hev).1]
    intro hcon
    exact absurd hcon (by decide)
  | ok p =>
    obtain ⟨info1, kk⟩ := p
    dsimp only
    rw [List.append_assoc]
    refine ⟨_, rfl, ?_⟩
    intro ev hev
    simp only [List.mem_append] at hev
    rcases hev with hev | hev
    · rw [(downloadTargets_trace_kind env ts _ 0 _ 0 ev hev).1]
      intro hcon
      exact absurd hcon (by decide)
    · rw [(broadcast_mem hev).2.1]
      intro hcon
      exact absurd hcon (by decide)

/-- C2 amended witness: the run of `envGood` (targets sized 1000 and
2000 bytes) delivers the start event first, once to the observer, with
`bytes_downloaded = 0` and `total_bytes = 3000`. -/
theorem c2_start_event_witness :
    ∃ tail,
      (measure_download_speed envGood [unitHook]).2.1 =
        broadcast 1 .on_download
          { bytes_downloaded := 0, total_bytes := 3000, time_elapsed := 0 } ++ tail ∧
      ∀ ev ∈ tail, ev.kind ≠ .on_download := by
  have h := c2_start_event envGood [unitHook] [targetA, targetB]
    (fun i => if i = 0 then 1000 else 2000) rfl rfl
    (fun j hj => by
      simp only [List.length_cons, List.length_nil] at hj
      interval_cases j <;> rfl)
  simpa [U64, probeSum] using h

/-! ### Trace characterization of finished and failed runs -/

theorem measure_shape (env : Env) (hooks : List (SpeedTestEvents σ)) :
    (∃ e, (measure_download_speed env hooks).2.1 = [] ∧
      (measure_download_speed env hooks).2.2 = .error e) ∨
    (∃ s0 dltr e,
      (measure_download_speed env hooks).2.1 =
        broadcast hooks.length .on_download s0 ++ dltr ∧
      (measure_download_speed env hooks).2.2 = .error e ∧
      s0.bytes_downloaded = 0 ∧ s0.time_elapsed = 0 ∧
      ∀ ev ∈ dltr, ev.kind = .on_downloading ∧ ev.hook < hooks.length) ∨
    (∃ s0 dltr info,
      (measure_download_speed env hooks).2.1 =
        broadcast hooks.length .on_download s0 ++ dltr ++
          broadcast hooks.length .on_downloaded info ∧
      (measure_download_speed env hooks).2.2 = .ok info ∧
      s0.bytes_downloaded = 0 ∧ s0.time_elapsed = 0 ∧
      ∀ ev ∈ dltr, ev.kind = .on_downloading ∧ ev.hook < hooks.length) := by
  simp only [measure_download_speed]
  split
  · exact Or.inl ⟨_, rfl, rfl⟩
  split
  · exact Or.inl ⟨_, rfl, rfl⟩
  split
  · exact Or.inl ⟨_, rfl, rfl⟩
  split
  · refine Or.inr (Or.inl ⟨_, _, _, rfl, rfl, rfl, rfl, ?_⟩)
    intro ev hev
    have := downloadTargets_trace_kind env _ _ 0 _ 0 ev hev
    simpa [notify_length] using this
  · refine Or.inr (Or.inr ⟨_, _, _, rfl, rfl, rfl, rfl, ?_⟩)
    intro ev hev
    have := downloadTargets_trace_kind env _ _ 0 _ 0 ev hev
    simpa [notify_length] using this

theorem measure_ok_trace (env : Env) (hooks : List (SpeedTestEvents σ))
    (info : TargetDownloadInformation)
    (h : (measure_download_speed env hooks).2.2 = .ok info) :
    ∃ s0 dltr,
      (measure_download_speed env hooks).2.1 =
        broadcast hooks.length .on_download s0 ++ dltr ++
          broadcast hooks.length .on_downloaded info ∧
      s0.bytes_downloaded = 0 ∧ s0.time_elapsed = 0 ∧
      ∀ ev ∈ dltr, ev.kind = .on_downloading ∧ ev.hook < hooks.length := by
  rcases measure_shape env hooks with ⟨e, _, hres⟩ | ⟨s0, dltr, e, _, hres, _⟩ |
    ⟨s0, dltr, info2, htr, hres, hb, ht, hdl⟩
  · rw [h] at hres; exact absurd hres (by simp)
  · rw [h] at hres; exact absurd hres (by simp)
  · rw [h] at hres
    obtain rfl : info = info2 := Except.ok.inj hres
    exact ⟨s0, dltr, htr, hb, ht, hdl⟩

theorem measure_error_trace (env : Env) (hooks : List (SpeedTestEvents σ))
    (e : SpeedTestError)
    (h : (measure_download_speed env hooks).2.2 = .error e) :
    ∀ ev ∈ (measure_download_speed env hooks).2.1, ev.kind ≠ .on_downloaded := by
  rcases measure_shape env hooks with ⟨e2, htr, hres⟩ | ⟨s0, dltr, e2, htr, hres, hb, ht, hdl⟩ |
    ⟨s0, dltr, info2, htr, hres, _⟩
  · rw [htr]; intro ev hev; exact absurd hev (by simp)
  · rw [htr]
    intro ev hev
    simp only [List.mem_append] at hev
    rcases hev with hev | hev
    · rw [(broadcast_mem hev).2.1]
      intro hcon
      exact absurd hcon (by decide)
    · rw [(hdl ev hev).1]
      intro hcon
      exact absurd hcon (by decide)
  · rw [h] at hres; exact absurd hres (by simp)

/-- C9: for every run, the `on_downloaded` finished event is delivered
exactly once to each registered observer — as the final broadcast of the
trace, after every progress delivery — and only when the run succeeds
(a failed run delivers no finished event at all); in particular a run
whose discovery returns zero targets completes successfully with
`total_bytes = 0` and `bytes_downloaded = 0` while still broadcasting
both the start and the finished events. -/
theorem c9_finished_event (env : Env) (hooks : List (SpeedTestEvents σ)) :
    (∀ info, (measure_download_speed env hooks).2.2 = .ok info →
      ∃ pre, (measure_download_speed env hooks).2.1 =
          pre ++ broadcast hooks.length .on_downloaded info ∧
        ∀ ev ∈ pre, ev.kind ≠ .on_downloaded) ∧
    (∀ e, (measure_download_speed env hooks).2.2 = .error e →
      ∀ ev ∈ (measure_download_speed env hooks).2.1, ev.kind ≠ .on_downloaded) ∧
    (env.clientBuild = .ok () → env.setup = .ok [] →
      measure_download_speed env hooks =
        (notify (notify hooks .on_download ⟨0, 0, 0⟩) .on_downloaded ⟨0, 0, env.clock 0⟩,
          broadcast hooks.length .on_download ⟨0, 0, 0⟩ ++
            broadcast hooks.length .on_downloaded ⟨0, 0, env.clock 0⟩,
          .ok ⟨0, 0, env.clock 0⟩)) := by
  refine ⟨?_, ?_, ?_⟩
  · intro info h
    obtain ⟨s0, dltr, htr, _, _, hdl⟩ := measure_ok_trace env hooks info h
    rw [htr]
    refine ⟨_, rfl, ?_⟩
    intro ev hev
    simp only [List.mem_append] at hev
    rcases hev with hev | hev
    · rw [(broadcast_mem hev).2.1]
      intro hcon
      exact absurd hcon (by decide)
    · rw [(hdl ev hev).1]
      intro hcon
      exact absurd hcon (by decide)
  · exact fun e h => measure_error_trace env hooks e h
  · intro h1 h2
    simp only [measure_download_speed, h1, h2, probeTargets, downloadTargets,
      List.append_nil]

/-- C9 witness: the zero-target run completes with a zeroed snapshot and
fires exactly the start and finished broadcasts. -/
theorem c9_witness :
    measure_download_speed env0Targets [countHook] =
      (notify (notify [countHook] .on_download ⟨0, 0, 0⟩) .on_downloaded ⟨0, 0, 7⟩,
        broadcast 1 .on_download ⟨0, 0, 0⟩ ++ broadcast 1 .on_downloaded ⟨0, 0, 7⟩,
        .ok ⟨0, 0, 7⟩) :=
  (c9_finished_event env0Targets [countHook]).2.2 rfl rfl

/-- C10: on every successful run, the snapshot delivered by every
`on_downloaded` notification is — field for field — the very snapshot
value the call returns to the caller. -/
theorem c10_finished_snapshot (env : Env) (hooks : List (SpeedTestEvents σ))
    (info : TargetDownloadInformation)
    (h : (measure_download_speed env hooks).2.2 = .ok info) :
    ∀ ev ∈ (measure_download_speed env hooks).2.1,
      ev.kind = .on_downloaded → ev.snap = info := by
  obtain ⟨s0, dltr, htr, _, _, hdl⟩ := measure_ok_trace env hooks info h
  intro ev hev hk
  rw [htr] at hev
  simp only [List.mem_append] at hev
  rcases hev with (hev | hev) | hev
  · rw [(broadcast_mem hev).2.1] at hk
    exact absurd hk (by decide)
  · rw [(hdl ev hev).1] at hk
    exact absurd hk (by decide)
  · exact (broadcast_mem hev).2.2

/-- C10 witness: in the well-behaved two-target run the finished
delivery to observer 0 carries exactly the returned snapshot
`⟨3000, 3000, 3⟩`. -/
theorem c10_witness :
    (⟨0, EventKind.on_downloaded, ⟨3000, 3000, 3⟩⟩ : TraceEv) ∈
      (measure_download_speed envGood [unitHook]).2.1 ∧
    (⟨0, EventKind.on_downloaded, ⟨3000, 3000, 3⟩⟩ : TraceEv).snap =
      ⟨3000, 3000, 3⟩ := by
  have hm : (⟨0, EventKind.on_downloaded, ⟨3000, 3000, 3⟩⟩ : TraceEv) ∈
      (measure_download_speed envGood [unitHook]).2.1 := by decide
  exact ⟨hm, c10_finished_snapshot envGood [unitHook] ⟨3000, 3000, 3⟩ rfl _ hm rfl⟩

/-! ### Notification blocks: order and completeness -/

theorem BroadcastTrace.append {n : Nat} :
    ∀ {tr1 tr2 : List TraceEv}, BroadcastTrace n tr1 → BroadcastTrace n tr2 →
    BroadcastTrace n (tr1 ++ tr2) := by
  intro tr1 tr2 h1 h2
  induction h1 with
  | nil => simpa using h2
  | cons k s tr htr ih =>
    rw [List.append_assoc]
    exact .cons k s _ ih

theorem BroadcastTrace.single (n : Nat) (k : EventKind) (s : TargetDownloadInformation) :
    BroadcastTrace n (broadcast n k s) := by
  have h := BroadcastTrace.cons (n := n) k s [] .nil
  simpa using h

theorem consumeStream_broadcastTrace (clock : Nat → Nat) :
    ∀ (items : List (Except SpeedTestError Nat)) (hooks : List (SpeedTestEvents σ))
      (info : TargetDownloadInformation) (k : Nat),
    BroadcastTrace hooks.length (consumeStream clock hooks items info k).2.1 := by
  intro items
  induction items with
  | nil => intro hooks info k; exact .nil
  | cons x rest ih =>
    intro hooks info k
    cases x with
    | error e => exact .nil
    | ok len =>
      by_cases hl : len < U64
      · simp only [consumeStream, if_pos hl]
        refine BroadcastTrace.cons _ _ _ ?_
        have h2 := ih (notify hooks .on_downloading
            { info with bytes_downloaded := (info.bytes_downloaded + len) % U64,
                        time_elapsed := clock k })
          { info with bytes_downloaded := (info.bytes_downloaded + len) % U64,
                      time_elapsed := clock k }
          (k + 1)
        rw [notify_length] at h2
        exact h2
      · simp only [consumeStream, if_neg hl]
        exact .nil

theorem downloadTargets_broadcastTrace (env : Env) :
    ∀ (targets : List Target) (hooks : List (SpeedTestEvents σ)) (i : Nat)
      (info : TargetDownloadInformation) (k : Nat),
    BroadcastTrace hooks.length (downloadTargets env hooks targets i info k).2.1 := by
  intro targets
  induction targets with
  | nil => intro hooks i info k; exact .nil
  | cons t rest ih =>
    intro hooks i info k
    simp only [downloadTargets]
    cases hs : env.stream i with
    | error e => exact .nil
    | ok items =>
      dsimp only
      cases hc : (consumeStream env.clock hooks items info k).2.2 with
      | error e => exact consumeStream_broadcastTrace env.clock items hooks info k
      | ok p =>
        obtain ⟨info2, k2⟩ := p
        refine BroadcastTrace.append
          (consumeStream_broadcastTrace env.clock items hooks info k) ?_
        have h2 := ih (consumeStream env.clock hooks items info k).1 (i + 1) info2 k2
        rw [consumeStream_hooks_length] at h2
        exact h2

theorem downloadTargets_broadcastTrace_of_length (env : Env) (targets : List Target)
    (hooks : List (SpeedTestEvents σ)) (i : Nat) (info : TargetDownloadInformation)
    (k : Nat) (n : Nat) (hn : hooks.length = n) :
    BroadcastTrace n (downloadTargets env hooks targets i info k).2.1 := by
  subst hn
  exact downloadTargets_broadcastTrace env targets hooks i info k

/-- C8: every notification loop broadcasts its snapshot to every
registered observer synchronously: the delivery trace of any run
decomposes into contiguous complete broadcasts, each delivering one
event with one snapshot value to observers `0, 1, …, n-1` in exactly
that order — the registration order, since `add_events_hook` appends at
the end — and each broadcast completes before any later delivery is
made. -/
theorem c8_notify_broadcasts (env : Env) (hooks : List (SpeedTestEvents σ)) :
    BroadcastTrace hooks.length (measure_download_speed env hooks).2.1 := by
  simp only [measure_download_speed]
  split
  · exact .nil
  split
  · exact .nil
  split
  · exact .nil
  split
  · exact BroadcastTrace.append (BroadcastTrace.single _ _ _)
      (downloadTargets_broadcastTrace_of_length env _ _ 0 _ 0 _ (notify_length _ _ _))
  · exact BroadcastTrace.append
      (BroadcastTrace.append (BroadcastTrace.single _ _ _)
        (downloadTargets_broadcastTrace_of_length env _ _ 0 _ 0 _ (notify_length _ _ _)))
      (BroadcastTrace.single _ _ _)

/-! ### Observer isolation -/

theorem consumeStream_pair_congr (clock : Nat → Nat) :
    ∀ (items : List (Except SpeedTestError Nat)) (hooks1 : List (SpeedTestEvents σ))
      (hooks2 : List (SpeedTestEvents τ)) (info : TargetDownloadInformation) (k : Nat),
    hooks1.length = hooks2.length →
    (consumeStream clock hooks1 items info k).2 =
      (consumeStream clock hooks2 items info k).2 := by
  intro items
  induction items with
  | nil => intro hooks1 hooks2 info k hlen; rfl
  | cons x rest ih =>
    intro hooks1 hooks2 info k hlen
    cases x with
    | error e => rfl
    | ok len =>
      by_cases hl : len < U64
      · simp only [consumeStream, if_pos hl]
        have h2 := ih (notify hooks1 .on_downloading
            { info with bytes_downloaded := (info.bytes_downloaded + len) % U64,
                        time_elapsed := clock k })
          (notify hooks2 .on_downloading
            { info with bytes_downloaded := (info.bytes_downloaded + len) % U64,
                        time_elapsed := clock k })
          { info with bytes_downloaded := (info.bytes_downloaded + len) % U64,
                      time_elapsed := clock k }
          (k + 1) (by simp [notify_length, hlen])
        rw [Prod.ext_iff] at h2
        simp only [Prod.mk.injEq]
        exact ⟨by rw [hlen, h2.1], h2.2⟩
      · simp only [consumeStream, if_neg hl]

theorem downloadTargets_pair_congr (env : Env) :
    ∀ (targets : List Target) (hooks1 : List (SpeedTestEvents σ))
      (hooks2 : List (SpeedTestEvents τ)) (i : Nat)
      (info : TargetDownloadInformation) (k : Nat),
    hooks1.length = hooks2.length →
    (downloadTargets env hooks1 targets i info k).2 =
      (downloadTargets env hooks2 targets i info k).2 := by
  intro targets
  induction targets with
  | nil => intro hooks1 hooks2 i info k hlen; rfl
  | cons t rest ih =>
    intro hooks1 hooks2 i info k hlen
    simp only [downloadTargets]
    cases hs : env.stream i with
    | error e => rfl
    | ok items =>
      dsimp only
      have hcs := consumeStream_pair_congr env.clock items hooks1 hooks2 info k hlen
      rw [Prod.ext_iff] at hcs
      rw [← hcs.2]
      cases hc : (consumeStream env.clock hooks1 items info k).2.2 with
      | error e => simp only [Prod.mk.injEq]; exact ⟨hcs.1, trivial⟩
      | ok p =>
        obtain ⟨info2, k2⟩ := p
        dsimp only
        have hdl := ih (consumeStream env.clock hooks1 items info k).1
          (consumeStream env.clock hooks2 items info k).1 (i + 1) info2 k2
          (by rw [consumeStream_hooks_length, consumeStream_hooks_length, hlen])
        rw [Prod.ext_iff] at hdl
        simp only [Prod.mk.injEq]
        exact ⟨by rw [hcs.1, hdl.1], hdl.2⟩

theorem measure_pair_congr (env : Env) (hooks1 : List (SpeedTestEvents σ))
    (hooks2 : List (SpeedTestEvents τ)) (hlen : hooks1.length = hooks2.length) :
    (measure_download_speed env hooks1).2 = (measure_download_speed env hooks2).2 := by
  simp only [measure_download_speed]
  cases hc : env.clientBuild with
  | error e => rfl
  | ok u =>
    dsimp only
    cases hs : env.setup with
    | error e => rfl
    | ok ts =>
      dsimp only
      cases hp : probeTargets env.head ts 0 0 with
      | error e => rfl
      | ok total =>
        dsimp only
        have hdl := downloadTargets_pair_congr env ts
          (notify hooks1 .on_download
            { bytes_downloaded := 0, total_bytes := total, time_elapsed := 0 })
          (notify hooks2 .on_download
            { bytes_downloaded := 0, total_bytes := total, time_elapsed := 0 })
          0 { bytes_downloaded := 0, total_bytes := total, time_elapsed := 0 } 0
          (by rw [notify_length, notify_length, hlen])
        rw [Prod.ext_iff] at hdl
        rw [← hdl.2]
        cases hd : (downloadTargets env
            (notify hooks1 .on_download
              { bytes_downloaded := 0, total_bytes := total, time_elapsed := 0 })
            ts 0
            { bytes_downloaded := 0, total_bytes := total, time_elapsed := 0 } 0).2.2 with
        | error e =>
          simp only [Prod.mk.injEq]
          exact ⟨by rw [hdl.1, hlen], trivial⟩
        | ok p =>
          obtain ⟨info2, k2⟩ := p
          dsimp only
          simp only [Prod.mk.injEq]
          exact ⟨by rw [hdl.1, hlen], trivial⟩

theorem runHook_append (h : SpeedTestEvents σ) (i : Nat) (tr1 tr2 : List TraceEv) :
    runHook h i (tr1 ++ tr2) = runHook (runHook h i tr1) i tr2 := by
  simp [runHook, List.foldl_append]

theorem broadcast_succ (n : Nat) (k : EventKind) (s : TargetDownloadInformation) :
    broadcast (n + 1) k s = broadcast n k s ++ [⟨n, k, s⟩] := by
  simp [broadcast, List.range_succ]

theorem runHook_broadcast (h : SpeedTestEvents σ) (k : EventKind)
    (s : TargetDownloadInformation) (i : Nat) :
    ∀ n, runHook h i (broadcast n k s) = if i < n then h.apply k s else h := by
  intro n
  induction n with
  | zero => simp [broadcast, runHook]
  | succ m ih =>
    rw [broadcast_succ, runHook_append, ih]
    by_cases him : i < m
    · rw [if_pos him, if_pos (by omega)]
      simp [runHook, show ¬ (m = i) by omega]
    · by_cases heq : i = m
      · subst heq
        rw [if_neg him, if_pos (by omega)]
        simp [runHook]
      · rw [if_neg him, if_neg (by omega)]
        simp [runHook, show ¬ (m = i) by omega]

theorem notify_getElem (hooks : List (SpeedTestEvents σ)) (k : EventKind)
    (s : TargetDownloadInformation) (i : Nat) :
    (notify hooks k s)[i]? = hooks[i]?.map (fun h => h.apply k s) := by
  simp [notify, List.getElem?_map]

theorem consumeStream_hook_state (clock : Nat → Nat) :
    ∀ (items : List (Except SpeedTestError Nat)) (hooks : List (SpeedTestEvents σ))
      (info : TargetDownloadInformation) (k : Nat) (i : Nat),
    (consumeStream clock hooks items info k).1[i]? =
      hooks[i]?.map (fun h => runHook h i (consumeStream clock hooks items info k).2.1) := by
  intro items
  induction items with
  | nil => intro hooks info k i; cases hx : hooks[i]? <;> simp [consumeStream, hx, runHook]
  | cons x rest ih =>
    intro hooks info k i
    cases x with
    | error e => cases hx : hooks[i]? <;> simp [consumeStream, hx, runHook]
    | ok len =>
      by_cases hl : len < U64
      · simp only [consumeStream, if_pos hl]
        rw [ih (notify hooks .on_downloading
            { info with bytes_downloaded := (info.bytes_downloaded + len) % U64,
                        time_elapsed := clock k })
          { info with bytes_downloaded := (info.bytes_downloaded + len) % U64,
                      time_elapsed := clock k }
          (k + 1) i]
        rw [notify_getElem]
        cases hx : hooks[i]? with
        | none => rfl
        | some h =>
          have hi : i < hooks.length := (List.getElem?_eq_some.mp hx).1
          simp only [Option.map_some']
          rw [runHook_append, runHook_broadcast, if_pos hi]
      · simp only [consumeStream, if_neg hl]
        cases hx : hooks[i]? <;> simp [hx, runHook]

theorem downloadTargets_hook_state (env : Env) :
    ∀ (targets : List Target) (hooks : List (SpeedTestEvents σ)) (i0 : Nat)
      (info : TargetDownloadInformation) (k : Nat) (i : Nat),
    (downloadTargets env hooks targets i0 info k).1[i]? =
      hooks[i]?.map
        (fun h => runHook h i (downloadTargets env hooks targets i0 info k).2.1) := by
  intro targets
  induction targets with
  | nil => intro hooks i0 info k i; cases hx : hooks[i]? <;> simp [downloadTargets, hx, runHook]
  | cons t rest ih =>
    intro hooks i0 info k i
    simp only [downloadTargets]
    cases hs : env.stream i0 with
    | error e => cases hx : hooks[i]? <;> simp [hx, runHook]
    | ok items =>
      dsimp only
      cases hc : (consumeStream env.clock hooks items info k).2.2 with
      | error e => exact consumeStream_hook_state env.clock items hooks info k i
      | ok p =>
        obtain ⟨info2, k2⟩ := p
        dsimp only
        rw [ih (consumeStream env.clock hooks items info k).1 (i0 + 1) info2 k2 i]
        rw [consumeStream_hook_state env.clock items hooks info k i]
        cases hx : hooks[i]? with
        | none => rfl
        | some h =>
          simp only [Option.map_some']
          rw [runHook_append]

theorem measure_hook_state (env : Env) (hooks : List (SpeedTestEvents σ)) (i : Nat) :
    (measure_download_speed env hooks).1[i]? =
      hooks[i]?.map (fun h => runHook h i (measure_download_speed env hooks).2.1) := by
  simp only [measure_download_speed]
  cases hc : env.clientBuild with
  | error e => cases hx : hooks[i]? <;> simp [hx, runHook]
  | ok u =>
    dsimp only
    cases hs : env.setup with
    | error e => cases hx : hooks[i]? <;> simp [hx, runHook]
    | ok ts =>
      dsimp only
      cases hp : probeTargets env.head ts 0 0 with
      | error e => cases hx : hooks[i]? <;> simp [hx, runHook]
      | ok total =>
        dsimp only
        cases hd : (downloadTargets env
            (notify hooks .on_download
              { bytes_downloaded := 0, total_bytes := total, time_elapsed := 0 })
            ts 0
            { bytes_downloaded := 0, total_bytes := total, time_elapsed := 0 } 0).2.2 with
        | error e =>
          dsimp only
          rw [downloadTargets_hook_state env ts
            (notify hooks .on_download
              { bytes_downloaded := 0, total_bytes := total, time_elapsed := 0 })
            0 { bytes_downloaded := 0, total_bytes := total, time_elapsed := 0 } 0 i]
          rw [notify_getElem]
          cases hx : hooks[i]? with
          | none => rfl
          | some h =>
            have hi : i < hooks.length := (List.getElem?_eq_some.mp hx).1
            simp only [Option.map_some']
            rw [runHook_append, runHook_broadcast, if_pos hi]
        | ok p =>
          obtain ⟨info1, kk⟩ := p
          dsimp only
          rw [notify_getElem]
          rw [downloadTargets_hook_state env ts
            (notify hooks .on_download
              { bytes_downloaded := 0, total_bytes := total, time_elapsed := 0 })
            0 { bytes_downloaded := 0, total_bytes := total, time_elapsed := 0 } 0 i]
          rw [notify_getElem]
          cases hx : hooks[i]? with
          | none => rfl
          | some h =>
            have hi : i < hooks.length := (List.getElem?_eq_some.mp hx).1
            simp only [Option.map_some']
            rw [runHook_append, runHook_append, runHook_broadcast, if_pos hi,
              runHook_broadcast, if_pos hi]

/-- C7: the snapshot shown to observers is handed over read-only (an
immutable borrow of a plain-data struct), so no observer can mutate the
engine's counters, and an observer can never affect the engine or
another observer: the engine's whole observable outcome — the delivery
trace and the returned result — is identical for any two hook lists of
the same length, whatever their callbacks and states do; and each
observer's final state is exactly its own callbacks folded over the
snapshot values of the trace, independent of every other observer. -/
theorem c7_snapshot_isolation (env : Env)
    (hooks1 : List (SpeedTestEvents σ)) (hooks2 : List (SpeedTestEvents τ))
    (hlen : hooks1.length = hooks2.length) :
    (measure_download_speed env hooks1).2 = (measure_download_speed env hooks2).2 ∧
    ∀ i, (measure_download_speed env hooks1).1[i]? =
      hooks1[i]?.map (fun h => runHook h i (measure_download_speed env hooks1).2.1) :=
  ⟨measure_pair_congr env hooks1 hooks2 hlen, fun i => measure_hook_state env hooks1 i⟩

/-- C7 witness: with one stateless and one counting observer the engine
produces the same trace and result, and observer 0's final state is its
own fold over the trace. -/
theorem c7_witness :
    (measure_download_speed envGood [unitHook]).2 =
      (measure_download_speed envGood [countHook]).2 ∧
    (measure_download_speed envGood [unitHook]).1[0]? =
      [unitHook][0]?.map
        (fun h => runHook h 0 (measure_download_speed envGood [unitHook]).2.1) := by
  have h := c7_snapshot_isolation envGood [unitHook] [countHook] rfl
  exact ⟨h.1, h.2 0⟩

/-! ### Monotonicity of progress snapshots -/

theorem snapLE_refl (a : TargetDownloadInformation) : snapLE a a :=
  ⟨Nat.le_refl _, Nat.le_refl _⟩

theorem snapLE_trans {a b c : TargetDownloadInformation} (h1 : snapLE a b)
    (h2 : snapLE b c) : snapLE a c :=
  ⟨Nat.le_trans h1.1 h2.1, Nat.le_trans h1.2 h2.2⟩

theorem progressSnaps_append (tr1 tr2 : List TraceEv) (i : Nat) :
    progressSnaps (tr1 ++ tr2) i = progressSnaps tr1 i ++ progressSnaps tr2 i := by
  simp [progressSnaps, List.filter_append]

theorem progressSnaps_broadcast (n : Nat) (k : EventKind)
    (s : TargetDownloadInformation) (i : Nat) :
    progressSnaps (broadcast n k s) i =
      if i < n ∧ k = EventKind.on_downloading then [s] else [] := by
  induction n with
  | zero => simp [broadcast, progressSnaps]
  | succ m ih =>
    rw [broadcast_succ, progressSnaps_append, ih]
    by_cases hk : k = EventKind.on_downloading
    · subst hk
      by_cases him : i < m
      · simp [progressSnaps, him, show i < m + 1 by omega, show ¬ (m = i) by omega]
      · by_cases heq : i = m
        · subst heq
          simp [progressSnaps, him, show i < i + 1 by omega]
        · simp [progressSnaps, him, show ¬ (i < m + 1) by omega,
            show ¬ (m = i) by omega]
    · simp [progressSnaps, hk]

theorem chain'_cons_of_snapLE {b a : TargetDownloadInformation}
    {l : List TargetDownloadInformation} (hba : snapLE b a)
    (h : List.Chain' snapLE (a :: l)) : List.Chain' snapLE (b :: l) := by
  cases l with
  | nil => simp
  | cons c l' =>
    rw [List.chain'_cons] at h ⊢
    exact ⟨snapLE_trans hba h.1, h.2⟩

theorem chain'_glue {a m : TargetDownloadInformation}
    {l1 l2 : List TargetDownloadInformation}
    (h1 : List.Chain' snapLE ((a :: l1) ++ [m]))
    (h2 : List.Chain' snapLE (m :: l2)) :
    List.Chain' snapLE (a :: (l1 ++ l2)) := by
  rw [List.chain'_cons'] at h2
  rw [List.chain'_append] at h1
  have hx : List.Chain' snapLE ((a :: l1) ++ l2) := by
    rw [List.chain'_append]
    refine ⟨h1.1, h2.2, ?_⟩
    intro x hx y hy
    have hxm := h1.2.2 x hx m (by simp)
    exact snapLE_trans hxm (h2.1 y hy)
  simpa using hx

theorem chain'_glue_end {a m b : TargetDownloadInformation}
    {l1 l2 : List TargetDownloadInformation}
    (h1 : List.Chain' snapLE ((a :: l1) ++ [m]))
    (h2 : List.Chain' snapLE ((m :: l2) ++ [b])) :
    List.Chain' snapLE ((a :: (l1 ++ l2)) ++ [b]) := by
  have h2' : List.Chain' snapLE (m :: (l2 ++ [b])) := by simpa using h2
  have := chain'_glue h1 h2'
  simpa [List.append_assoc] using this

theorem consumeStream_chain (clock : Nat → Nat) (hclock : Monotone clock) (i : Nat) :
    ∀ (items : List (Except SpeedTestError Nat)) (hooks : List (SpeedTestEvents σ))
      (info : TargetDownloadInformation) (k : Nat),
    info.bytes_downloaded + (items.map itemLen).sum < U64 →
    info.time_elapsed ≤ clock k →
    List.Chain' snapLE
      (info :: progressSnaps (consumeStream clock hooks items info k).2.1 i) ∧
    ∀ info2 k2, (consumeStream clock hooks items info k).2.2 = .ok (info2, k2) →
      List.Chain' snapLE
        ((info :: progressSnaps (consumeStream clock hooks items info k).2.1 i) ++
          [info2]) ∧
      k ≤ k2 ∧ info2.time_elapsed ≤ clock k2 ∧
      info2.bytes_downloaded ≤ info.bytes_downloaded + (items.map itemLen).sum := by
  intro items
  induction items with
  | nil =>
    intro hooks info k hb ht
    constructor
    · simp [consumeStream, progressSnaps]
    · intro info2 k2 h2
      simp only [consumeStream, Except.ok.injEq, Prod.mk.injEq] at h2
      obtain ⟨rfl, rfl⟩ := h2
      refine ⟨?_, Nat.le_refl _, ht, by simp⟩
      simp only [consumeStream, progressSnaps, List.filter_nil, List.map_nil,
        List.nil_append, List.cons_append]
      rw [List.chain'_pair]
      exact snapLE_refl info
  | cons x rest ih =>
    intro hooks info k hb ht
    cases x with
    | error e =>
      constructor
      · simp [consumeStream, progressSnaps]
      · intro info2 k2 h2
        simp [consumeStream] at h2
    | ok len =>
      have hsum : info.bytes_downloaded + (len + (rest.map itemLen).sum) < U64 := by
        simpa [itemLen] using hb
      have hlen : len < U64 := by omega
      have hmod : (info.bytes_downloaded + len) % U64 = info.bytes_downloaded + len :=
        Nat.mod_eq_of_lt (by omega)
      simp only [consumeStream, if_pos hlen, hmod]
      have hstep : snapLE info
          { info with bytes_downloaded := info.bytes_downloaded + len,
                      time_elapsed := clock k } :=
        ⟨Nat.le_add_right _ _, ht⟩
      have hih := ih (notify hooks .on_downloading
          { info with bytes_downloaded := info.bytes_downloaded + len,
                      time_elapsed := clock k })
        { info with bytes_downloaded := info.bytes_downloaded + len,
                    time_elapsed := clock k }
        (k + 1) (by simpa using by omega) (hclock (Nat.le_succ k))
      rw [progressSnaps_append, progressSnaps_broadcast]
      by_cases hi : i < hooks.length
      · rw [if_pos ⟨hi, rfl⟩]
        constructor
        · simp only [List.cons_append, List.nil_append]
          rw [List.chain'_cons]
          exact ⟨hstep, hih.1⟩
        · intro info2 k2 h2
          obtain ⟨hch, hk, htime, hbytes⟩ := hih.2 info2 k2 h2
          refine ⟨?_, by omega, htime, ?_⟩
          · simp only [List.cons_append, List.nil_append] at hch ⊢
            rw [List.chain'_cons]
            exact ⟨hstep, hch⟩
          · simp only [List.map_cons, List.sum_cons, itemLen]
            simp at hbytes
            omega
      · rw [if_neg (by intro hcon; exact hi hcon.1)]
        constructor
        · simp only [List.nil_append]
          exact chain'_cons_of_snapLE hstep hih.1
        · intro info2 k2 h2
          obtain ⟨hch, hk, htime, hbytes⟩ := hih.2 info2 k2 h2
          refine ⟨?_, by omega, htime, ?_⟩
          · simp only [List.cons_append, List.nil_append] at hch ⊢
            exact chain'_cons_of_snapLE hstep hch
          · simp only [List.map_cons, List.sum_cons, itemLen]
            simp at hbytes
            omega

theorem downloadTargets_chain (env : Env) (hclock : Monotone env.clock) (i : Nat) :
    ∀ (ts : List Target) (hooks : List (SpeedTestEvents σ)) (i0 : Nat)
      (info : TargetDownloadInformation) (k : Nat),
    info.bytes_downloaded + streamBudget env i0 ts < U64 →
    info.time_elapsed ≤ env.clock k →
    List.Chain' snapLE
      (info :: progressSnaps (downloadTargets env hooks ts i0 info k).2.1 i) ∧
    ∀ info2 k2, (downloadTargets env hooks ts i0 info k).2.2 = .ok (info2, k2) →
      List.Chain' snapLE
        ((info :: progressSnaps (downloadTargets env hooks ts i0 info k).2.1 i) ++
          [info2]) ∧
      k ≤ k2 ∧ info2.time_elapsed ≤ env.clock k2 ∧
      info2.bytes_downloaded ≤ info.bytes_downloaded + streamBudget env i0 ts := by
  intro ts
  induction ts with
  | nil =>
    intro hooks i0 info k hb ht
    constructor
    · simp [downloadTargets, progressSnaps]
    · intro info2 k2 h2
      simp only [downloadTargets, Except.ok.injEq, Prod.mk.injEq] at h2
      obtain ⟨rfl, rfl⟩ := h2
      refine ⟨?_, Nat.le_refl _, ht, by simp⟩
      simp only [downloadTargets, progressSnaps, List.filter_nil, List.map_nil,
        List.nil_append, List.cons_append]
      rw [List.chain'_pair]
      exact snapLE_refl info
  | cons t rest ih =>
    intro hooks i0 info k hb ht
    simp only [downloadTargets]
    cases hs : env.stream i0 with
    | error e =>
      constructor
      · simp [progressSnaps]
      · intro info2 k2 h2
        simp at h2
    | ok items =>
      dsimp only
      have hbudget : streamBudget env i0 (t :: rest) =
          (items.map itemLen).sum + streamBudget env (i0 + 1) rest := by
        simp [streamBudget, hs, streamLens]
      rw [hbudget] at hb
      have hcs := consumeStream_chain env.clock hclock i items hooks info k
        (by omega) ht
      cases hc : (consumeStream env.clock hooks items info k).2.2 with
      | error e =>
        constructor
        · exact hcs.1
        · intro info2 k2 h2
          simp at h2
      | ok p =>
        obtain ⟨infoM, kM⟩ := p
        dsimp only
        obtain ⟨hchM, hkM, htimeM, hbytesM⟩ := hcs.2 infoM kM hc
        have hih := ih (consumeStream env.clock hooks items info k).1 (i0 + 1)
          infoM kM (by omega) htimeM
        rw [progressSnaps_append]
        constructor
        · exact chain'_glue hchM hih.1
        · intro info2 k2 h2
          obtain ⟨hch2, hk2, htime2, hbytes2⟩ := hih.2 info2 k2 h2
          refine ⟨chain'_glue_end hchM hch2, by omega, htime2, ?_⟩
          rw [hbudget]
          omega

/-- C5 counterexample: in `envWrap` the clock is monotone, yet the u64
byte counter wraps between the first and second chunk, so the progress
snapshots delivered to observer 0 go from `2^64 - 1` bytes down to `1`
byte: the sequence is not monotonically non-decreasing. -/
theorem c5_counterexample :
    Monotone envWrap.clock ∧
    ¬ List.Chain' snapLE
      (progressSnaps (measure_download_speed envWrap [unitHook]).2.1 0) := by
  refine ⟨fun a b h => h, ?_⟩
  have hsn : progressSnaps (measure_download_speed envWrap [unitHook]).2.1 0 =
      [⟨U64 - 1, 3, 0⟩, ⟨1, 3, 1⟩] := rfl
  rw [hsn, List.chain'_pair]
  intro hcon
  have h1 := hcon.1
  norm_num [U64] at h1

/-- C5 amended: provided the clock readings are non-decreasing and the
bytes offered by all the targets' streams total below `2^64` (so the u64
counter never wraps — true of all real speed-test payloads), the
sequence of progress snapshots delivered to any observer is
monotonically non-decreasing in both `bytes_downloaded` and
`time_elapsed`. -/
theorem c5_progress_monotone (env : Env) (hooks : List (SpeedTestEvents σ)) (i : Nat)
    (hclock : Monotone env.clock)
    (hbound : ∀ ts, env.setup = .ok ts → streamBudget env 0 ts < U64) :
    List.Chain' snapLE (progressSnaps (measure_download_speed env hooks).2.1 i) := by
  simp only [measure_download_speed]
  cases hc : env.clientBuild with
  | error e => simp [progressSnaps]
  | ok u =>
    dsimp only
    cases hs : env.setup with
    | error e => simp [progressSnaps]
    | ok ts =>
      dsimp only
      cases hp : probeTargets env.head ts 0 0 with
      | error e => simp [progressSnaps]
      | ok total =>
        dsimp only
        have hdl := downloadTargets_chain env hclock i ts
          (notify hooks .on_download
            { bytes_downloaded := 0, total_bytes := total, time_elapsed := 0 })
          0 { bytes_downloaded := 0, total_bytes := total, time_elapsed := 0 } 0
          (by simpa using hbound ts hs) (Nat.zero_le _)
        cases hd : (downloadTargets env
            (notify hooks .on_download
              { bytes_downloaded := 0, total_bytes := total, time_elapsed := 0 })
            ts 0
            { bytes_downloaded := 0, total_bytes := total, time_elapsed := 0 } 0).2.2 with
        | error e =>
          dsimp only
          rw [progressSnaps_append, progressSnaps_broadcast, if_neg (by simp)]
          simp only [List.nil_append]
          exact hdl.1.tail
        | ok p =>
          obtain ⟨info1, kk⟩ := p
          dsimp only
          rw [progressSnaps_append, progressSnaps_append, progressSnaps_broadcast,
            progressSnaps_broadcast, if_neg (by simp), if_neg (by simp)]
          simp only [List.nil_append, List.append_nil]
          exact hdl.1.tail

/-- C5 amended witness: the progress snapshots of the well-behaved
two-target run are a non-decreasing chain. -/
theorem c5_progress_monotone_witness :
    List.Chain' snapLE
      (progressSnaps (measure_download_speed envGood [unitHook]).2.1 0) := by
  refine c5_progress_monotone envGood [unitHook] 0 (fun a b h => h) ?_
  intro ts hts
  have h3 : ([targetA, targetB] : List Target) = ts := by
    simpa [envGood] using hts
  subst h3
  norm_num [streamBudget, streamLens, itemLen, envGood, U64]
